import Mathlib

/-!
# DjangoVerseHub — shallow embedding and verification

Shallow embedding of the DjangoVerseHub repository's domain logic in Lean 4,
with theorems settling the specification claims about notifications, comment
threading, comment likes, article publication, slugs, and profile privacy.

Conventions of the embedding:
* Django model rows become Lean structures; primary keys are `Nat`/`String`.
* Timestamps are integers (seconds); `timezone.now()` becomes an explicit
  `now : Int` argument.
* Nullable columns become `Option`; Python string falsiness (`not self.slug`)
  is the empty string for text columns.
* A queryset `filter(...)` over a table becomes `List.filter`; an
  `update(...)` becomes `List.map` guarded by the filter predicate.
* Code that raises becomes `Except String`.
-/

namespace DjangoVerseHub

/-! ## Notifications (apps/notifications/models.py, apps/notifications/views.py) -/

/-- A row of the `Notification` model, restricted to the columns the
mark-read operations touch: `recipient`, `is_read`, `read_at`. -/
structure Notification where
  recipient : Nat
  isRead : Bool
  readAt : Option Int
deriving Repr, DecidableEq

/-- `Notification.mark_as_read` (apps/notifications/models.py, lines 44–48).
The method guards on `not self.is_read`.  In the unread branch the source
evaluates `models.timezone.now()`, but the module imports only
`from django.db import models` and `django.db.models` has no attribute
`timezone`, so the attribute lookup raises `AttributeError` before
`self.save(...)` runs — the row is left unchanged in the database.  On an
already-read notification the guard makes the call a no-op. -/
def Notification.mark_as_read (n : Notification) : Except String Notification :=
  if !n.isRead then
    Except.error "AttributeError: module django.db.models has no attribute timezone"
  else
    Except.ok n

/-- `mark_all_notifications_read` (apps/notifications/views.py, lines 80–92):
`Notification.objects.filter(recipient=request.user, is_read=False).update(is_read=True)`.
Returns the updated table and the number of rows matched (`marked_count`).
Note the bulk `update` sets only `is_read`; `read_at` is not touched. -/
def mark_all_notifications_read (userId : Nat) (table : List Notification) :
    List Notification × Nat :=
  (table.map fun n =>
      if n.recipient = userId ∧ n.isRead = false then
        { n with isRead := true }
      else n,
   (table.filter fun n => n.recipient = userId ∧ n.isRead = false).length)

/-! ## Comment likes (apps/comments/views.py, apps/comments/signals.py) -/

/-- `comment_like_view` (apps/comments/views.py, lines 164–192) together with
the registered receivers `comment_like_post_save` / `comment_like_post_delete`
(apps/comments/signals.py, lines 47–71, connected by `CommentsConfig.ready`),
acting on the like-state of one comment.  `likes` is the set of user ids
holding a `CommentLike` row for this comment (`unique_together =
['comment', 'user']` guarantees at most one row per user), `likesCount` the
stored counter the view fetched.

Like path: `get_or_create(comment=comment, user=…)` inserts the row and fires
`post_save` synchronously; since the row was instantiated with the view's
`comment` object, `instance.comment` in the receiver *is* that cached object,
so the receiver sets its `likes_count` to `comment.likes.count()` (the row
count including the new row) and saves; the view then executes
`comment.likes_count += 1` on the same object and its final
`save(update_fields=['likes_count'])` persists row count + 1.

Unlike path: `like.delete()` fires `post_delete`, whose `instance.comment` is
a freshly fetched copy (the row came from the `get` branch, which caches no
related object), so the receiver's recount is overwritten by the view's final
save of `max(0, likes_count - 1)` computed from the fetched counter.

The triple returned is (like rows, the `likes_count` value finally persisted
by the view's save, the `liked` flag the view reports — the JSON response
carries the same persisted counter). -/
def comment_like_view (user : Nat) (likes : List Nat) (likesCount : Int) :
    List Nat × Int × Bool :=
  if user ∈ likes then
    (likes.erase user, max 0 (likesCount - 1), false)
  else
    (user :: likes, ((user :: likes).length : Int) + 1, true)

/-- A sequence of like-toggle calls (by arbitrary users, in arbitrary order)
applied to one comment's like-state. -/
def runToggles (seq : List Nat) (st : List Nat × Int) : List Nat × Int :=
  seq.foldl (fun s u => let r := comment_like_view u s.1 s.2; (r.1, r.2.1)) st

/-! ## Comments (apps/comments/models.py) -/

/-- A row of the `Comment` model.  `parent` holds the parent comment itself
(the claims about `clean`/`get_thread_depth`/`total_replies` all assume the
parent chain is finite and acyclic, which is exactly what this inductive
representation provides); Lean structures cannot be recursive, hence the
single-constructor inductive.  Field order follows the model:
`id`, `content_type`, `object_id`, `author`, `content`, `parent`,
`is_active`, `is_flagged`, `is_edited`, `likes_count`, `created_at`. -/
inductive Comment where
  | mk (id : String) (contentTypeId : Nat) (objectId : String) (authorId : Nat)
       (content : String) (parent : Option Comment)
       (isActive : Bool) (isFlagged : Bool) (isEdited : Bool)
       (likesCount : Nat) (createdAt : Int)

def Comment.id : Comment → String
  | .mk i _ _ _ _ _ _ _ _ _ _ => i

def Comment.contentTypeId : Comment → Nat
  | .mk _ ct _ _ _ _ _ _ _ _ _ => ct

def Comment.objectId : Comment → String
  | .mk _ _ oid _ _ _ _ _ _ _ _ => oid

def Comment.authorId : Comment → Nat
  | .mk _ _ _ a _ _ _ _ _ _ _ => a

def Comment.content : Comment → String
  | .mk _ _ _ _ c _ _ _ _ _ _ => c

def Comment.parent : Comment → Option Comment
  | .mk _ _ _ _ _ p _ _ _ _ _ => p

def Comment.isActive : Comment → Bool
  | .mk _ _ _ _ _ _ a _ _ _ _ => a

def Comment.isFlagged : Comment → Bool
  | .mk _ _ _ _ _ _ _ f _ _ _ => f

def Comment.isEdited : Comment → Bool
  | .mk _ _ _ _ _ _ _ _ e _ _ => e

def Comment.likesCount : Comment → Nat
  | .mk _ _ _ _ _ _ _ _ _ l _ => l

def Comment.createdAt : Comment → Int
  | .mk _ _ _ _ _ _ _ _ _ _ t => t

/-- `Comment.get_thread_depth` (apps/comments/models.py, lines 134–141):
walks `self.parent` upward, counting one per ancestor. -/
def Comment.get_thread_depth : Comment → Nat
  | .mk _ _ _ _ _ none _ _ _ _ _ => 0
  | .mk _ _ _ _ _ (some p) _ _ _ _ _ => 1 + p.get_thread_depth

/-- The list of ancestors of a comment (parent, grandparent, …), the
specification-side reading of "thread depth = number of ancestors". -/
def Comment.ancestors : Comment → List Comment
  | .mk _ _ _ _ _ none _ _ _ _ _ => []
  | .mk _ _ _ _ _ (some p) _ _ _ _ _ => p :: p.ancestors

/-- `Comment.clean` (apps/comments/models.py, lines 97–111): three sequential
guards, each raising `ValidationError`.  The first two compare the parent's
`content_type` and `object_id` with the comment's own (same message); the
third rejects a thread depth greater than 3.  All three are conditional on
`self.parent` being set.  `Comment.save` calls `clean` before persisting, so
a comment saves successfully iff `clean` returns `ok`. -/
def Comment.clean (c : Comment) : Except String Unit :=
  match c.parent with
  | none => Except.ok ()
  | some p =>
    if p.contentTypeId ≠ c.contentTypeId then
      Except.error "Parent comment must be on the same object"
    else if p.objectId ≠ c.objectId then
      Except.error "Parent comment must be on the same object"
    else if c.get_thread_depth > 3 then
      Except.error "Comment thread too deep"
    else
      Except.ok ()

/-- `Comment.can_edit` (apps/comments/models.py, lines 154–162) with
`user` reduced to the fields the method reads.  Note the control flow: when
`user == self.author` the method returns the 15-minute-window check and the
staff/superuser fallback is never reached. -/
structure SiteUser where
  id : Nat
  isStaff : Bool
  isSuperuser : Bool
deriving Repr, DecidableEq

/-- `edit_window = timezone.now() - timedelta(minutes=15)`;
`return self.created_at > edit_window` (author branch), else
`return user.is_staff or user.is_superuser`.  Times in seconds. -/
def Comment.can_edit (c : Comment) (u : SiteUser) (now : Int) : Bool :=
  if u.id = c.authorId then
    decide (c.createdAt > now - 15 * 60)
  else
    u.isStaff || u.isSuperuser

/-- The claim's wording of *CanEdit*: "true if user is author and current
time is within 15 minutes of creation, or if user is staff/superuser". -/
def canEditSpec (c : Comment) (u : SiteUser) (now : Int) : Bool :=
  (decide (u.id = c.authorId) && decide (c.createdAt > now - 15 * 60))
    || u.isStaff || u.isSuperuser

/-- `Comment.soft_delete` (apps/comments/models.py, lines 178–182):
`self.is_active = False; self.content = '[Comment deleted]';
self.save(update_fields=['is_active', 'content'])` — only those two columns
change. -/
def Comment.soft_delete : Comment → Comment
  | .mk i ct oid a _ p _ fl ed lk t =>
    .mk i ct oid a "[Comment deleted]" p false fl ed lk t

/-- The database effect of `soft_delete` on the comments table: the row with
the comment's primary key is updated in place, every other row (including all
descendants) is untouched. -/
def softDeleteRow (cid : String) (table : List Comment) : List Comment :=
  table.map fun x => if x.id = cid then x.soft_delete else x

/-- `CommentManager.for_object` (apps/comments/models.py, lines 22–29):
`filter(content_type=…, object_id=…, is_active=True)`. -/
def for_object (contentTypeId : Nat) (objectId : String) (table : List Comment) :
    List Comment :=
  table.filter fun c =>
    c.contentTypeId = contentTypeId ∧ c.objectId = objectId ∧ c.isActive = true

/-! ## Reply trees (`Comment.total_replies`) -/

/-- A comment together with its (finite, acyclic) tree of replies: the
`replies` related-set of the model, materialized as a rose tree. -/
inductive ReplyTree where
  | node (comment : Comment) (replies : List ReplyTree)

def ReplyTree.comment : ReplyTree → Comment
  | .node c _ => c

mutual
/-- `Comment.total_replies` (apps/comments/models.py, lines 126–132):
`count = 0; for reply in self.replies.filter(is_active=True):
count += 1 + reply.total_replies` — inactive replies contribute nothing and
their subtrees are not visited. -/
def totalReplies : ReplyTree → Nat
  | .node _ rs => totalRepliesList rs

def totalRepliesList : List ReplyTree → Nat
  | [] => 0
  | r :: rs =>
    (if r.comment.isActive then 1 + totalReplies r else 0) + totalRepliesList rs
end

mutual
/-- Specification side: the descendants reachable from a comment through
chains of `is_active` replies (a descendant below an inactive reply is not
reachable). -/
def activeDescendants : ReplyTree → List Comment
  | .node _ rs => activeDescendantsList rs

def activeDescendantsList : List ReplyTree → List Comment
  | [] => []
  | r :: rs =>
    (if r.comment.isActive then r.comment :: activeDescendants r else [])
      ++ activeDescendantsList rs
end

/-! ## Comment-creation notification (apps/notifications/signals.py) -/

/-- The attribute names an instance of `apps.comments.models.Comment` exposes:
model fields (with the generic relation and reverse related names `replies`,
`likes` and the implicit `pk`), manager, and the methods/properties defined on
the class in apps/comments/models.py. -/
def commentModelAttrs : List String :=
  ["id", "pk", "content_type", "object_id", "content_object", "author",
   "content", "parent", "is_active", "is_flagged", "is_edited", "likes_count",
   "created_at", "updated_at", "objects", "replies", "likes",
   "is_root", "reply_count", "total_replies", "get_thread_depth",
   "get_replies_tree", "can_edit", "can_delete", "mark_as_edited", "flag",
   "soft_delete", "clean", "save", "get_absolute_url"]

/-- The attribute `create_comment_notification`
(apps/notifications/signals.py, lines 30–41) reads from the saved comment:
`instance.post.author` / `instance.post.id`. -/
def createCommentNotificationAttr : String := "post"

/-! ## Public profiles (apps/users/models.py, apps/users/cache.py) -/

/-- A value in the JSON-like projection dictionaries returned by the user
cache. -/
inductive PValue where
  | s (v : String)
  | b (v : Bool)
deriving Repr, DecidableEq

/-- The `CustomUser`+`Profile` fields read by `UserCache.get_public_profile`
and the `display_name`/`avatar_url` properties, plus unrelated profile data
(`email`, `fullName`, `bio`, …) that privacy filtering must not leak. -/
structure ProfileUser where
  username : String
  email : String
  fullName : String
  avatar : Option String
  bio : String
  location : String
  website : String
  twitter : String
  linkedin : String
  github : String
  dateJoined : String
  isPublic : Bool
  showRealName : Bool
  showEmail : Bool
deriving Repr, DecidableEq

/-- `Profile.display_name` (apps/users/models.py, lines 138–141):
`if self.full_name and self.show_real_name: return self.full_name;
return self.user.username`. -/
def display_name (u : ProfileUser) : String :=
  if u.fullName ≠ "" ∧ u.showRealName = true then u.fullName else u.username

/-- `Profile.avatar_url` (apps/users/models.py, lines 144–148): the uploaded
avatar's URL, or the static default. -/
def avatar_url (u : ProfileUser) : String :=
  match u.avatar with
  | some url => url
  | none => "/static/images/default-avatar.png"

/-- `UserCache.get_public_profile` (apps/users/cache.py, lines 90–128),
cache-miss path.  Public profiles build the ten-key dictionary and then
`profile_data.pop('full_name', None)` when `show_real_name` is false (the
dictionary never holds a `full_name` key, so the pop removes nothing);
private profiles return only username, avatar URL and the `is_private`
marker. -/
def get_public_profile (u : ProfileUser) : List (String × PValue) :=
  if u.isPublic = true then
    let d : List (String × PValue) :=
      [("username", PValue.s u.username),
       ("display_name", PValue.s (display_name u)),
       ("avatar_url", PValue.s (avatar_url u)),
       ("bio", PValue.s u.bio),
       ("location", PValue.s u.location),
       ("website", PValue.s u.website),
       ("twitter", PValue.s u.twitter),
       ("linkedin", PValue.s u.linkedin),
       ("github", PValue.s u.github),
       ("date_joined", PValue.s u.dateJoined)]
    if u.showRealName = false then d.filter (fun kv => kv.1 ≠ "full_name") else d
  else
    [("username", PValue.s u.username),
     ("avatar_url", PValue.s (avatar_url u)),
     ("is_private", PValue.b true)]

/-! ## Articles and slugs (apps/articles/models.py, django_verse_hub/utils.py) -/

/-- A row of the `Article` model, restricted to the columns `Article.save`
touches or reads. -/
structure Article where
  slug : String
  title : String
  status : String
  publishedAt : Option Int
  metaDescription : String
  content : String
deriving Repr, DecidableEq

/-- The candidate slugs probed by `generate_unique_slug`, in probe order:
the slugified base itself, then `base-1`, `base-2`, …
(`f'{slug}-{num}'` with `num = 1, 2, …`). -/
def slugCand (base : String) : Nat → String
  | 0 => base
  | k + 1 => base ++ "-" ++ Nat.repr (k + 1)

/-- The `while` loop of `generate_unique_slug` (django_verse_hub/utils.py,
lines 12–24): state is `(unique_slug, num)`; while `unique_slug` is already
taken, set `unique_slug = f'{slug}-{num}'` and increment `num`.  The source
loop is unbounded; here it carries fuel, and `generate_unique_slug` supplies
`taken.length + 1` steps, which `exists_free_slugCand` below proves always
suffices to reach a free slug — so with that fuel this function equals the
source's unbounded loop. -/
def slugLoop (taken : List String) (base : String) : String → Nat → Nat → String
  | cur, _, 0 => cur
  | cur, num, fuel + 1 =>
    if cur ∈ taken then slugLoop taken base (base ++ "-" ++ Nat.repr num) (num + 1) fuel
    else cur

/-- `generate_unique_slug` (django_verse_hub/utils.py, lines 12–24), with the
slugified source field passed in as `base` and the database's existing slug
column contents as `taken`. -/
def generate_unique_slug (taken : List String) (base : String) : String :=
  slugLoop taken base base 1 (taken.length + 1)

/-- `Article.save` (apps/articles/models.py, lines 179–193): assign the slug
if unset; stamp `published_at` on first publication and clear it when the
status is not "published"; auto-fill `meta_description` from the first 150
characters of content.  `slugify` (a third-party text helper) is passed in
as a function. -/
def Article.save (a : Article) (slugify : String → String) (taken : List String)
    (now : Int) : Article :=
  { a with
    slug := if a.slug = "" then generate_unique_slug taken (slugify a.title) else a.slug
    publishedAt :=
      if a.status = "published" then
        (if a.publishedAt = none then some now else a.publishedAt)
      else none
    metaDescription :=
      if a.metaDescription = "" ∧ a.content ≠ "" then
        (if a.content.length > 150 then a.content.take 150 ++ "..." else a.content)
      else a.metaDescription }

/-- Creating `n` articles with the same (slugified) title against an
initially empty slug namespace: each save adds its generated slug to the
taken set seen by the next. -/
def createSameTitle (base : String) : Nat → List String
  | 0 => []
  | n + 1 =>
    let prev := createSameTitle base n
    prev ++ [generate_unique_slug prev base]

/-- Decimal value of a digit character (inverse of `Nat.digitChar` on
`'0'`–`'9'`). -/
def charVal (c : Char) : Nat := c.toNat - 48

/-- Value of a big-endian list of decimal digit characters; used to prove
`Nat.repr` injective, which makes the probed slug candidates pairwise
distinct. -/
def valOfDigits : List Char → Nat
  | [] => 0
  | c :: cs => charVal c * 10 ^ cs.length + valOfDigits cs

/-- A reply in the sense of the claims: parent set, and the generic
(content-type, object-id) target pair shared with the parent. -/
def isReply (c p : Comment) : Prop :=
  c.parent = some p ∧ c.contentTypeId = p.contentTypeId ∧ c.objectId = p.objectId

/-! ## Concrete fixtures used by the witness theorems -/

def chain0 : Comment := .mk "c0" 1 "art1" 10 "root" none true false false 0 0

def chain1 : Comment := .mk "c1" 1 "art1" 11 "r1" (some chain0) true false false 0 1

def chain2 : Comment := .mk "c2" 1 "art1" 12 "r2" (some chain1) true false false 0 2

def chain3 : Comment := .mk "c3" 1 "art1" 13 "r3" (some chain2) true false false 0 3

def chain4 : Comment := .mk "c4" 1 "art1" 14 "r4" (some chain3) true false false 0 4

def rowA : Comment := .mk "a" 1 "art1" 10 "hello" none true false false 2 0

def rowB : Comment := .mk "b" 1 "art1" 11 "reply" (some rowA) true false false 0 1

def privProfileA : ProfileUser :=
  ⟨"alice", "a@x.com", "Alice A", none, "bio text", "NYC", "", "", "", "",
   "2024-01-01", false, true, true⟩

def privProfileB : ProfileUser :=
  ⟨"alice", "other@y.org", "Totally Different", none, "", "", "w", "t", "l",
   "g", "1999-12-31", false, false, false⟩

def pubProfileHidden : ProfileUser :=
  ⟨"bob", "b@x.com", "Bob B", none, "", "", "", "", "", "", "2024-01-01",
   true, false, true⟩

/-! ## Lemmas -/

lemma runToggles_nonneg : ∀ (seq : List Nat) (st : List Nat × Int),
    0 ≤ st.2 → 0 ≤ (runToggles seq st).2 := by
  intro seq
  induction seq with
  | nil => intro st h; simpa [runToggles] using h
  | cons u rest ih =>
    intro st h
    have hstep : 0 ≤ (let r := comment_like_view u st.1 st.2; ((r.1, r.2.1) : List Nat × Int)).2 := by
      by_cases hm : u ∈ st.1
      · simp only [comment_like_view, if_pos hm]
        exact le_max_left 0 _
      · simp only [comment_like_view, if_neg hm]
        have := Int.natCast_nonneg ((u :: st.1).length)
        omega
    have := ih _ hstep
    simpa [runToggles, List.foldl_cons] using this

/-- Unfolding of `get_thread_depth` through the `parent` accessor. -/
lemma Comment.get_thread_depth_parent (c : Comment) :
    c.get_thread_depth = match c.parent with
      | none => 0
      | some p => 1 + p.get_thread_depth := by
  cases c with
  | mk i ct oid a co p ia fl ed lk t => cases p <;> rfl

/-- Unfolding of `ancestors` through the `parent` accessor. -/
lemma Comment.ancestors_parent (c : Comment) :
    c.ancestors = match c.parent with
      | none => []
      | some p => p :: p.ancestors := by
  cases c with
  | mk i ct oid a co p ia fl ed lk t => cases p <;> rfl

lemma clean_of_parent_ok (c p : Comment) (hp : c.parent = some p)
    (hct : c.contentTypeId = p.contentTypeId) (hoid : c.objectId = p.objectId)
    (hd : c.get_thread_depth ≤ 3) : c.clean = Except.ok () := by
  simp [Comment.clean, hp, hct, hoid, Nat.not_lt.mpr hd]

theorem depth_eq_ancestors_length : ∀ c : Comment, c.get_thread_depth = c.ancestors.length
  | .mk _ _ _ _ _ none _ _ _ _ _ => by
      simp [Comment.get_thread_depth, Comment.ancestors]
  | .mk i ct oid a co (some p) ia fl ed lk t => by
      have ih := depth_eq_ancestors_length p
      simp [Comment.get_thread_depth, Comment.ancestors, ih, Nat.add_comm]

mutual
theorem totalReplies_eq_activeDescendants :
    ∀ t : ReplyTree, totalReplies t = (activeDescendants t).length
  | .node c rs => by
      rw [totalReplies, activeDescendants]
      exact totalRepliesList_eq rs

theorem totalRepliesList_eq :
    ∀ rs : List ReplyTree, totalRepliesList rs = (activeDescendantsList rs).length
  | [] => rfl
  | r :: rs => by
      rw [totalRepliesList, activeDescendantsList]
      by_cases h : r.comment.isActive = true
      · simp [h, totalReplies_eq_activeDescendants r, totalRepliesList_eq rs,
          List.length_append]
        omega
      · simp [h, totalRepliesList_eq rs]
end

/-! ## Claim theorems: C1, C2 -/

/-- C1: the claim says `mark_as_read` on an unread notification sets `is_read`
and stamps `read_at` (exactly once), is a no-op on a read one, and the
mark-all view marks every unread notification of the recipient read.  The
code's `mark_as_read` instead raises `AttributeError` on every unread
notification (the model's own test `test_mark_as_read` expects success), so
nothing is persisted and `read_at` is never stamped; the already-read no-op
and the bulk mark-all (which marks `is_read` without stamping `read_at`) are
shown at concrete inputs. -/
theorem C1_mark_as_read_bug :
    Notification.mark_as_read ⟨0, false, none⟩ =
      Except.error "AttributeError: module django.db.models has no attribute timezone" ∧
    Notification.mark_as_read ⟨0, true, some 5⟩ = Except.ok ⟨0, true, some 5⟩ ∧
    mark_all_notifications_read 0 [⟨0, false, none⟩, ⟨0, true, some 3⟩, ⟨1, false, none⟩] =
      ([⟨0, true, none⟩, ⟨0, true, some 3⟩, ⟨1, false, none⟩], 1) := by
  refine ⟨rfl, rfl, ?_⟩
  simp [mark_all_notifications_read]

/-- C2: the claim (with spec §8.5 and the repository's own tests
`test_comment_like_view_ajax` / `test_comment_unlike_ajax`) says the first
toggle on a fresh comment persists `likes_count = 1` and creates one
`CommentLike`, and the second returns the counter to 0.  With the registered
signal receivers the first toggle persists **2** — `comment_like_post_save`
recounts to 1 on the very comment object the view then increments — and the
second toggle persists `max(0, 2 - 1) = 1`, not 0.  Only the row bookkeeping
(exactly one row created, then deleted) and the never-negative part of the
claim hold. -/
theorem C2_like_toggle_bug :
    comment_like_view 7 [] 0 = ([7], 2, true) ∧
    comment_like_view 7 [7] 2 = ([], 1, false) ∧
    ∀ seq : List Nat, 0 ≤ (runToggles seq ([], 0)).2 := by
  refine ⟨?_, ?_, ?_⟩
  · simp [comment_like_view]
  · simp [comment_like_view]
  · intro seq
    exact runToggles_nonneg seq ([], 0) (by simp)

/-- C4: along any chain C0 ← C1 ← C2 ← C3 of replies sharing the target
pair, saving C1, C2, C3 passes validation (`clean` succeeds, hence `save`
persists), while a fourth-level reply C4 → C3 is rejected with
"Comment thread too deep"; and any reply whose (content-type, object-id)
differs from its parent's is rejected with a validation error. -/
theorem C4_thread_depth_enforcement
    (c0 c1 c2 c3 c4 : Comment)
    (h0 : c0.parent = none)
    (h1 : isReply c1 c0) (h2 : isReply c2 c1) (h3 : isReply c3 c2) (h4 : isReply c4 c3) :
    c1.clean = Except.ok () ∧ c2.clean = Except.ok () ∧ c3.clean = Except.ok () ∧
    c4.clean = Except.error "Comment thread too deep" ∧
    (∀ c p : Comment, c.parent = some p →
      p.contentTypeId ≠ c.contentTypeId ∨ p.objectId ≠ c.objectId →
      c.clean = Except.error "Parent comment must be on the same object") := by
  obtain ⟨hp1, hct1, hoid1⟩ := h1
  obtain ⟨hp2, hct2, hoid2⟩ := h2
  obtain ⟨hp3, hct3, hoid3⟩ := h3
  obtain ⟨hp4, hct4, hoid4⟩ := h4
  have d0 : c0.get_thread_depth = 0 := by
    rw [Comment.get_thread_depth_parent, h0]
  have d1 : c1.get_thread_depth = 1 := by
    rw [Comment.get_thread_depth_parent, hp1]; simp [d0]
  have d2 : c2.get_thread_depth = 2 := by
    rw [Comment.get_thread_depth_parent, hp2]; simp [d1]
  have d3 : c3.get_thread_depth = 3 := by
    rw [Comment.get_thread_depth_parent, hp3]; simp [d2]
  have d4 : c4.get_thread_depth = 4 := by
    rw [Comment.get_thread_depth_parent, hp4]; simp [d3]
  refine ⟨?_, ?_, ?_, ?_, ?_⟩
  · exact clean_of_parent_ok c1 c0 hp1 hct1 hoid1 (by omega)
  · exact clean_of_parent_ok c2 c1 hp2 hct2 hoid2 (by omega)
  · exact clean_of_parent_ok c3 c2 hp3 hct3 hoid3 (by omega)
  · simp [Comment.clean, hp4, hct4, hoid4, d4]
  · intro c p hp hne
    rcases hne with hct | hoid
    · simp [Comment.clean, hp, hct]
    · by_cases hct : p.contentTypeId = c.contentTypeId
      · simp [Comment.clean, hp, hct, hoid]
      · simp [Comment.clean, hp, hct]

/-- Witness for C4 on a concrete reply chain. -/
theorem C4_thread_depth_enforcement_witness :
    chain1.clean = Except.ok () ∧ chain2.clean = Except.ok () ∧
    chain3.clean = Except.ok () ∧
    chain4.clean = Except.error "Comment thread too deep" := by
  have h := C4_thread_depth_enforcement chain0 chain1 chain2 chain3 chain4
    rfl ⟨rfl, rfl, rfl⟩ ⟨rfl, rfl, rfl⟩ ⟨rfl, rfl, rfl⟩ ⟨rfl, rfl, rfl⟩
  exact ⟨h.1, h.2.1, h.2.2.1, h.2.2.2.1⟩

/-- C6 counterexample: a staff member editing their *own* comment older than
15 minutes.  The claim says *CanEdit* is true whenever the caller is
staff/superuser; the code checks `user == self.author` first and returns the
15-minute window test for the author, never reaching the staff branch. -/
theorem C6_counterexample :
    canEditSpec (.mk "c" 1 "art1" 7 "hi" none true false false 0 0) ⟨7, true, false⟩ 10000 = true ∧
    Comment.can_edit (.mk "c" 1 "art1" 7 "hi" none true false false 0 0) ⟨7, true, false⟩ 10000 = false := by
  exact ⟨rfl, rfl⟩

/-- C6 (amended): `can_edit(comment, user)` returns true iff either the user
is the author and the current time is within 15 minutes of creation, or the
user is **not** the author and is staff or superuser.  (A staff/superuser
author is still bound by the 15-minute window.) -/
theorem C6_can_edit_amended (c : Comment) (u : SiteUser) (now : Int) :
    Comment.can_edit c u now = true ↔
      (u.id = c.authorId ∧ now - 15 * 60 < c.createdAt) ∨
      (u.id ≠ c.authorId ∧ (u.isStaff = true ∨ u.isSuperuser = true)) := by
  unfold Comment.can_edit
  by_cases h : u.id = c.authorId
  · simp [h, gt_iff_lt]
  · simp [h, Bool.or_eq_true]

/-- C9: soft-deleting a comment clears `is_active`, replaces `content` with
the fixed placeholder, changes no other column; applied to the table it keeps
the row (and every other row, so descendants stay in place) and the deleted
comment can never appear in a `for_object` (active-comment) query. -/
theorem C9_soft_delete (c : Comment) :
    (c.soft_delete).isActive = false ∧
    (c.soft_delete).content = "[Comment deleted]" ∧
    (c.soft_delete).id = c.id ∧
    (c.soft_delete).authorId = c.authorId ∧
    (c.soft_delete).parent = c.parent ∧
    (c.soft_delete).contentTypeId = c.contentTypeId ∧
    (c.soft_delete).objectId = c.objectId ∧
    (c.soft_delete).isFlagged = c.isFlagged ∧
    (c.soft_delete).isEdited = c.isEdited ∧
    (c.soft_delete).likesCount = c.likesCount ∧
    (c.soft_delete).createdAt = c.createdAt ∧
    (∀ table : List Comment, (softDeleteRow c.id table).length = table.length) ∧
    (∀ table : List Comment, ∀ x ∈ table, x.id ≠ c.id → x ∈ softDeleteRow c.id table) ∧
    (∀ table : List Comment, c ∈ table → c.soft_delete ∈ softDeleteRow c.id table) ∧
    (∀ ct oid table, c.soft_delete ∉ for_object ct oid table) := by
  obtain ⟨i, ct, oid, a, co, p, ia, fl, ed, lk, t⟩ := c
  refine ⟨rfl, rfl, rfl, rfl, rfl, rfl, rfl, rfl, rfl, rfl, rfl, ?_, ?_, ?_, ?_⟩
  · intro table; simp [softDeleteRow]
  · intro table x hx hne
    refine List.mem_map.mpr ⟨x, hx, ?_⟩
    rw [if_neg hne]
  · intro table hc
    refine List.mem_map.mpr ⟨_, hc, ?_⟩
    rw [if_pos rfl]
  · intro ctq oidq table hmem
    have := (List.mem_filter.mp hmem).2
    simp [Comment.soft_delete, Comment.isActive] at this

/-- Witness for C9 on concrete rows: the untouched sibling row survives, the
deleted row stays in the table, and is excluded from `for_object`. -/
theorem C9_soft_delete_witness :
    rowB ∈ softDeleteRow rowA.id [rowA, rowB] ∧
    rowA.soft_delete ∈ softDeleteRow rowA.id [rowA, rowB] ∧
    rowA.soft_delete ∉ for_object 1 "art1" [rowA.soft_delete, rowB] := by
  have h := C9_soft_delete rowA
  refine ⟨?_, ?_, ?_⟩
  · exact h.2.2.2.2.2.2.2.2.2.2.2.2.1 [rowA, rowB] rowB
      (by simp [rowA, rowB]) (by decide)
  · exact h.2.2.2.2.2.2.2.2.2.2.2.2.2.1 [rowA, rowB] (by simp [rowA, rowB])
  · exact h.2.2.2.2.2.2.2.2.2.2.2.2.2.2 1 "art1" [rowA.soft_delete, rowB]

/-- C10: on any finite acyclic parent chain, `get_thread_depth` terminates
(it is a total function of the embedded comment) and equals the number of
ancestors; on any finite acyclic reply tree, `total_replies` terminates and
equals the number of descendants reachable through chains of `is_active`
replies. -/
theorem C10_recursive_counts :
    (∀ c : Comment, c.get_thread_depth = c.ancestors.length) ∧
    (∀ t : ReplyTree, totalReplies t = (activeDescendants t).length) :=
  ⟨depth_eq_ancestors_length, totalReplies_eq_activeDescendants⟩

/-- C3: the claim (and the repository's own test
`test_comment_notification_created`) says creating a comment on another
user's article creates exactly one `Notification(recipient=A, sender=B,
type="comment")`.  The registered handler `create_comment_notification`
reads `instance.post`, but the `Comment` model exposes no such attribute
(its target is the generic `content_object`), so the handler cannot produce
the notification for any comment — the attribute access fails. -/
theorem C3_comment_notification_attr_missing :
    createCommentNotificationAttr ∉ commentModelAttrs := by
  decide

/-- C7: a private profile's public lookup is exactly
`[username, avatar_url, is_private]` and depends only on the username and
avatar (profiles differing in any other field give identical projections);
a public profile with `show_real_name = false` exposes no `full_name` key
and its `display_name` falls back to the username. -/
theorem C7_public_profile_privacy :
    (∀ u : ProfileUser, u.isPublic = false →
      get_public_profile u =
        [("username", PValue.s u.username),
         ("avatar_url", PValue.s (avatar_url u)),
         ("is_private", PValue.b true)]) ∧
    (∀ u v : ProfileUser, u.isPublic = false → v.isPublic = false →
      u.username = v.username → u.avatar = v.avatar →
      get_public_profile u = get_public_profile v) ∧
    (∀ u : ProfileUser, u.isPublic = true → u.showRealName = false →
      "full_name" ∉ (get_public_profile u).map Prod.fst ∧
      display_name u = u.username) := by
  refine ⟨?_, ?_, ?_⟩
  · intro u h
    simp [get_public_profile, h]
  · intro u v hu hv hname havatar
    simp [get_public_profile, hu, hv, hname, avatar_url, havatar]
  · intro u hpub hname
    constructor
    · simp [get_public_profile, hpub, hname]
    · simp [display_name, hname]

/-- Witness for C7 on concrete profiles. -/
theorem C7_public_profile_privacy_witness :
    get_public_profile privProfileA =
      [("username", PValue.s "alice"),
       ("avatar_url", PValue.s "/static/images/default-avatar.png"),
       ("is_private", PValue.b true)] ∧
    get_public_profile privProfileA = get_public_profile privProfileB ∧
    "full_name" ∉ (get_public_profile pubProfileHidden).map Prod.fst := by
  have h := C7_public_profile_privacy
  refine ⟨?_, ?_, ?_⟩
  · have := h.1 privProfileA rfl
    simpa [privProfileA, avatar_url] using this
  · exact h.2.1 privProfileA privProfileB rfl rfl rfl rfl
  · exact (h.2.2 pubProfileHidden rfl rfl).1

lemma charVal_digitChar (d : Nat) (h : d < 10) :
    charVal (Nat.digitChar d) = d := by
  interval_cases d <;> rfl

lemma valOf_toDigitsCore :
    ∀ (fuel n : Nat) (acc : List Char), n < 10 ^ fuel →
      valOfDigits (Nat.toDigitsCore 10 fuel n acc) =
        n * 10 ^ acc.length + valOfDigits acc := by
  intro fuel
  induction fuel with
  | zero =>
    intro n acc h
    interval_cases n
    simp [Nat.toDigitsCore]
  | succ fuel ih =>
    intro n acc h
    rw [Nat.toDigitsCore]
    by_cases h0 : n / 10 = 0
    · have hn : n < 10 := by omega
      have hmod : n % 10 = n := Nat.mod_eq_of_lt hn
      simp only [h0, if_pos rfl, reduceIte]
      simp [valOfDigits, hmod, charVal_digitChar n hn]
    · have hlt : n / 10 < 10 ^ fuel := by
        have hpow : (10 : Nat) ^ (fuel + 1) = 10 ^ fuel * 10 := pow_succ 10 fuel
        exact (Nat.div_lt_iff_lt_mul (by norm_num : (0 : Nat) < 10)).mpr (by omega)
      simp only [h0, if_neg h0, reduceIte]
      rw [ih (n / 10) (Nat.digitChar (n % 10) :: acc) hlt]
      simp only [valOfDigits, List.length_cons,
        charVal_digitChar _ (Nat.mod_lt n (by norm_num))]
      have hnm : 10 * (n / 10) + n % 10 = n := Nat.div_add_mod n 10
      have : n / 10 * 10 ^ (acc.length + 1) + n % 10 * 10 ^ acc.length =
          n * 10 ^ acc.length := by
        calc n / 10 * 10 ^ (acc.length + 1) + n % 10 * 10 ^ acc.length
            = (10 * (n / 10) + n % 10) * 10 ^ acc.length := by ring
          _ = n * 10 ^ acc.length := by rw [hnm]
      omega

lemma valOfDigits_repr (n : Nat) : valOfDigits (Nat.repr n).data = n := by
  have h : n < 10 ^ (n + 1) := by
    calc n < 2 ^ n := Nat.lt_two_pow n
      _ ≤ 10 ^ n := Nat.pow_le_pow_left (by norm_num) n
      _ ≤ 10 ^ (n + 1) := Nat.pow_le_pow_right (by norm_num) (Nat.le_succ n)
  have h2 := valOf_toDigitsCore (n + 1) n [] h
  show valOfDigits (Nat.toDigitsCore 10 (n + 1) n []) = n
  simpa [valOfDigits] using h2

lemma reprNat_injective : Function.Injective Nat.repr := by
  intro m n h
  have := congrArg (fun s => valOfDigits s.data) h
  simpa [valOfDigits_repr] using this

lemma slugCand_injective (base : String) : Function.Injective (slugCand base) := by
  have hlen : ∀ k : Nat, base ≠ base ++ "-" ++ Nat.repr (k + 1) := by
    intro k h
    have := congrArg String.length h
    rw [String.length_append, String.length_append] at this
    have : base.length = base.length + 1 + (Nat.repr (k + 1)).length := by
      simpa using this
    omega
  intro j k h
  match j, k with
  | 0, 0 => rfl
  | 0, k + 1 => exact absurd h (hlen k)
  | j + 1, 0 => exact absurd h.symm (hlen j)
  | j + 1, k + 1 =>
    simp only [slugCand] at h
    have hdata := congrArg String.data h
    simp only [String.data_append] at hdata
    have hd2 : (Nat.repr (j + 1)).data = (Nat.repr (k + 1)).data := by
      simpa using hdata
    have hv1 := valOfDigits_repr (j + 1)
    have hv2 := valOfDigits_repr (k + 1)
    rw [hd2] at hv1
    omega

lemma exists_free_slugCand (taken : List String) (base : String) :
    ∃ j, j ≤ taken.length ∧ slugCand base j ∉ taken := by
  by_contra hcon
  push_neg at hcon
  have hmaps : ∀ i : Fin (taken.length + 1), slugCand base i.val ∈ taken.toFinset := by
    intro i
    rw [List.mem_toFinset]
    exact hcon i.val (Nat.lt_succ_iff.mp i.isLt)
  have hcard := Finset.card_le_card_of_injOn
    (fun i : Fin (taken.length + 1) => slugCand base i.val)
    (fun i (_ : i ∈ (Finset.univ : Finset (Fin (taken.length + 1)))) => hmaps i)
    (fun a _ b _ h => Fin.ext (slugCand_injective base h))
  have hle := taken.toFinset_card_le
  simp [Finset.card_univ] at hcard
  omega

lemma slugLoop_spec (taken : List String) (base : String) :
    ∀ (fuel k : Nat), (∃ j, j < fuel ∧ slugCand base (k + j) ∉ taken) →
      ∃ m, slugLoop taken base (slugCand base k) (k + 1) fuel = slugCand base (k + m) ∧
        slugCand base (k + m) ∉ taken ∧ ∀ i, i < m → slugCand base (k + i) ∈ taken := by
  intro fuel
  induction fuel with
  | zero =>
    rintro k ⟨j, hj, -⟩
    omega
  | succ fuel ih =>
    intro k hex
    by_cases hk : slugCand base k ∈ taken
    · have step : slugLoop taken base (slugCand base k) (k + 1) (fuel + 1) =
          slugLoop taken base (slugCand base (k + 1)) (k + 2) fuel := by
        rw [slugLoop, if_pos hk]
        rfl
      obtain ⟨j, hj, hfree⟩ := hex
      have hj0 : j ≠ 0 := by
        rintro rfl
        exact hfree (by simpa using hk)
      obtain ⟨j', rfl⟩ : ∃ j', j = j' + 1 := ⟨j - 1, by omega⟩
      have hex' : ∃ j'', j'' < fuel ∧ slugCand base (k + 1 + j'') ∉ taken := by
        refine ⟨j', by omega, ?_⟩
        have : k + 1 + j' = k + (j' + 1) := by omega
        rw [this]
        exact hfree
      obtain ⟨m', hm1, hm2, hm3⟩ := ih (k + 1) hex'
      refine ⟨m' + 1, ?_, ?_, ?_⟩
      · rw [step, hm1]
        congr 1
        omega
      · have : k + (m' + 1) = k + 1 + m' := by omega
        rw [this]
        exact hm2
      · intro i hi
        cases i with
        | zero => simpa using hk
        | succ i' =>
          have := hm3 i' (by omega)
          have heq : k + (i' + 1) = k + 1 + i' := by omega
          rw [heq]
          exact this
    · refine ⟨0, ?_, by simpa using hk, by omega⟩
      rw [slugLoop, if_neg hk]
      rfl

lemma generate_unique_slug_spec (taken : List String) (base : String) :
    ∃ m, generate_unique_slug taken base = slugCand base m ∧
      slugCand base m ∉ taken ∧ ∀ i, i < m → slugCand base i ∈ taken := by
  obtain ⟨j, hj, hfree⟩ := exists_free_slugCand taken base
  have hex : ∃ j', j' < taken.length + 1 ∧ slugCand base (0 + j') ∉ taken :=
    ⟨j, by omega, by simpa using hfree⟩
  obtain ⟨m, h1, h2, h3⟩ := slugLoop_spec taken base (taken.length + 1) 0 hex
  refine ⟨m, ?_, by simpa using h2, fun i hi => by simpa using h3 i hi⟩
  simpa [generate_unique_slug, slugCand] using h1

lemma slugCand_pos (base : String) (j : Nat) (h : 1 ≤ j) :
    slugCand base j = base ++ "-" ++ Nat.repr j := by
  match j, h with
  | k + 1, _ => rfl

lemma generate_unique_slug_not_mem (taken : List String) (base : String) :
    generate_unique_slug taken base ∉ taken := by
  obtain ⟨m, h1, h2, -⟩ := generate_unique_slug_spec taken base
  rw [h1]
  exact h2

lemma generate_unique_slug_of_not_mem (taken : List String) (base : String)
    (h : base ∉ taken) : generate_unique_slug taken base = base := by
  obtain ⟨m, h1, -, h3⟩ := generate_unique_slug_spec taken base
  cases m with
  | zero => simpa [slugCand] using h1
  | succ m' => exact absurd (by simpa [slugCand] using h3 0 (Nat.succ_pos m')) h

lemma generate_unique_slug_of_mem (taken : List String) (base : String)
    (h : base ∈ taken) :
    ∃ k, 1 ≤ k ∧ generate_unique_slug taken base = base ++ "-" ++ Nat.repr k ∧
      ∀ j, 1 ≤ j → j < k → base ++ "-" ++ Nat.repr j ∈ taken := by
  obtain ⟨m, h1, h2, h3⟩ := generate_unique_slug_spec taken base
  cases m with
  | zero => exact absurd h (by simpa [slugCand] using h2)
  | succ m' =>
    refine ⟨m' + 1, Nat.succ_pos m', by simpa [slugCand] using h1, ?_⟩
    intro j hj1 hjk
    have := h3 j hjk
    rwa [slugCand_pos base j hj1] at this

lemma createSameTitle_structure (base : String) :
    ∀ n : Nat, (createSameTitle base n).Nodup ∧
      (1 ≤ n → ∃ t, createSameTitle base n = base :: t ∧
        ∀ s ∈ t, ∃ k, 1 ≤ k ∧ s = base ++ "-" ++ Nat.repr k) := by
  intro n
  induction n with
  | zero => exact ⟨List.nodup_nil, by omega⟩
  | succ n ih =>
    obtain ⟨hnodup, hshape⟩ := ih
    by_cases hn : 1 ≤ n
    · obtain ⟨t, ht, hts⟩ := hshape hn
      have hbase : base ∈ createSameTitle base n := by rw [ht]; exact List.mem_cons_self _ _
      obtain ⟨k, hk1, hkeq, -⟩ :=
        generate_unique_slug_of_mem (createSameTitle base n) base hbase
      have hnew : generate_unique_slug (createSameTitle base n) base ∉
          createSameTitle base n := generate_unique_slug_not_mem _ _
      constructor
      · show (createSameTitle base n ++ [generate_unique_slug (createSameTitle base n) base]).Nodup
        rw [List.nodup_append]
        exact ⟨hnodup, List.nodup_singleton _,
          fun a ha hb => by
            rw [List.mem_singleton] at hb
            exact hnew (hb ▸ ha)⟩
      · intro _
        refine ⟨t ++ [generate_unique_slug (createSameTitle base n) base], ?_, ?_⟩
        · show createSameTitle base n ++ [generate_unique_slug (createSameTitle base n) base] =
            base :: (t ++ [generate_unique_slug (createSameTitle base n) base])
          rw [ht]
          rfl
        · intro s hs
          rcases List.mem_append.mp hs with hs | hs
          · exact hts s hs
          · rw [List.mem_singleton] at hs
            exact ⟨k, hk1, hs ▸ hkeq⟩
    · have hn0 : n = 0 := by omega
      subst hn0
      have h1 : createSameTitle base 1 = [base] := by
        show ([] : List String) ++ [generate_unique_slug [] base] = [base]
        rw [generate_unique_slug_of_not_mem [] base (List.not_mem_nil base)]
        rfl
      rw [h1]
      exact ⟨List.nodup_singleton _, fun _ => ⟨[], rfl, by simp⟩⟩

/-- C5: after every `Article.save`, `published_at` is non-null iff the status
is "published"; more precisely the saved `published_at` is the old value when
the article was already published (re-saving keeps the publish date), the
current time on first publication, and null whenever the status is not
"published".  The save does not change the status. -/
theorem C5_published_at_invariant (slugify : String → String) (taken : List String)
    (now : Int) (a : Article) :
    ((a.save slugify taken now).publishedAt ≠ none ↔
      (a.save slugify taken now).status = "published") ∧
    (a.save slugify taken now).publishedAt =
      (if a.status = "published" then
        (if a.publishedAt = none then some now else a.publishedAt)
      else none) ∧
    (a.save slugify taken now).status = a.status := by
  refine ⟨?_, rfl, rfl⟩
  show (if a.status = "published" then
      (if a.publishedAt = none then some now else a.publishedAt)
    else none) ≠ none ↔ a.status = "published"
  by_cases hs : a.status = "published"
  · by_cases hp : a.publishedAt = none
    · simp [hs, hp]
    · simp [hs, hp]
  · simp [hs]

/-- C8: the slug is assigned only on a save with no slug set, and is then the
slugified title when free, otherwise the slugified title with the first free
numeric suffix `-1`, `-2`, …; articles created in sequence with the same
title all get distinct slugs, the first being the base and all later ones the
base plus a numeric suffix. -/
theorem C8_slug_assignment :
    (∀ (slugify : String → String) (taken : List String) (now : Int) (a : Article),
      (a.save slugify taken now).slug =
        if a.slug = "" then generate_unique_slug taken (slugify a.title)
        else a.slug) ∧
    (∀ (taken : List String) (base : String),
      generate_unique_slug taken base ∉ taken ∧
      (base ∉ taken → generate_unique_slug taken base = base) ∧
      (base ∈ taken → ∃ k, 1 ≤ k ∧
        generate_unique_slug taken base = base ++ "-" ++ Nat.repr k ∧
        ∀ j, 1 ≤ j → j < k → base ++ "-" ++ Nat.repr j ∈ taken)) ∧
    (∀ (base : String) (n : Nat),
      (createSameTitle base n).Nodup ∧
      (1 ≤ n → ∃ t, createSameTitle base n = base :: t ∧
        ∀ s ∈ t, ∃ k, 1 ≤ k ∧ s = base ++ "-" ++ Nat.repr k)) := by
  refine ⟨fun _ _ _ _ => rfl, ?_, ?_⟩
  · intro taken base
    exact ⟨generate_unique_slug_not_mem taken base,
      generate_unique_slug_of_not_mem taken base,
      generate_unique_slug_of_mem taken base⟩
  · intro base n
    exact createSameTitle_structure base n

/-- Witness for C8 on concrete slugs: with `my-post` and `my-post-1` taken,
the generated slug is free and carries a numeric suffix; with nothing taken
the base itself is returned. -/
theorem C8_slug_assignment_witness :
    generate_unique_slug ["my-post", "my-post-1"] "my-post" ∉
      ["my-post", "my-post-1"] ∧
    (∃ k, 1 ≤ k ∧
      generate_unique_slug ["my-post", "my-post-1"] "my-post" =
        "my-post" ++ "-" ++ Nat.repr k ∧
      ∀ j, 1 ≤ j → j < k → "my-post" ++ "-" ++ Nat.repr j ∈
        ["my-post", "my-post-1"]) ∧
    generate_unique_slug [] "my-post" = "my-post" := by
  have h := C8_slug_assignment
  exact ⟨(h.2.1 ["my-post", "my-post-1"] "my-post").1,
    (h.2.1 ["my-post", "my-post-1"] "my-post").2.2 (by decide),
    (h.2.1 [] "my-post").2.1 (by decide)⟩

end DjangoVerseHub
